import Mathlib

/-!
Shallow embedding of `internal/service/apigatewayv2/stage.go` from
kgns/terraform-provider-aws.

Modelling conventions:
* Go strings are `String`; the AWS SDK string-backed enums (`ProtocolType`,
  `LoggingLevel`) are `String` values with the SDK's literal contents and the
  Go zero value `""`.
* Go pointer-valued optional fields (`*bool`, `*string`, `*int32`, `*float64`)
  are `Option _`; `aws.ToX` is `Option.getD` with the Go zero value.
* Go `int` is `Int`; the `int32(v)` conversion in the converters is the
  explicit two's-complement wrap `toInt32`.
* Go `float64` values are only ever stored, compared and returned by this
  code (no arithmetic), so they are carried as exact `Rat` values.
* Go `map[string]V` is an association list `List (String × V)` with Go map
  semantics: `goInsert` overwrites an existing binding in place and appends a
  new one, `alookup` retrieves by key.  Map/set iteration order, which Go
  leaves unspecified, is modelled as the list order.
* `schema.TypeSet` (`route_settings`) is modelled as a duplicate-free list;
  `schema.Set.Difference` is list filtering by whole-element membership.
* The remote collaborator is modelled by passing its responses in as values
  (`Except RemoteErr _`) and recording the calls the orchestrator issues as a
  `List RemoteCall` trace, on the success paths of the preceding calls.
-/

namespace StageModel

/-- Source constant `defaultStageName` (stage.go line 30). -/
def defaultStageName : String := "$default"

/-- AWS SDK enum value `awstypes.ProtocolTypeWebsocket`. -/
def ProtocolTypeWebsocket : String := "WEBSOCKET"

/-- AWS SDK enum value `awstypes.ProtocolTypeHttp`. -/
def ProtocolTypeHttp : String := "HTTP"

/-- AWS SDK enum value `awstypes.LoggingLevelOff`. -/
def LoggingLevelOff : String := "OFF"

/-- AWS SDK enum value `awstypes.LoggingLevelInfo`. -/
def LoggingLevelInfo : String := "INFO"

/-- AWS SDK enum value `awstypes.LoggingLevelError`. -/
def LoggingLevelError : String := "ERROR"

/-- Go conversion `int32(v)` from a (64-bit) Go `int`: two's-complement wrap. -/
def toInt32 (i : Int) : Int := (i + 2 ^ 31) % 2 ^ 32 - 2 ^ 31

/-- Lookup in an association list modelling a Go `map[string]V`. -/
def alookup {β : Type} (k : String) : List (String × β) → Option β
  | [] => none
  | p :: ps => if p.1 = k then some p.2 else alookup k ps

/-- Go map assignment `m[k] = v`: overwrite the binding in place if the key is
present, otherwise append a new binding. -/
def goInsert {β : Type} (m : List (String × β)) (k : String) (v : β) :
    List (String × β) :=
  if m.any (fun p => decide (p.1 = k)) then
    m.map (fun p => if p.1 = k then (k, v) else p)
  else
    m ++ [(k, v)]

/-- Configuration-side `access_log_settings` block (both attributes are
`Required` strings in the schema). -/
structure AccessLogCfg where
  destinationArn : String
  format : String
deriving DecidableEq

/-- AWS-side `awstypes.AccessLogSettings` (pointer fields). -/
structure AccessLogSettings where
  destinationArn : Option String := none
  format : Option String := none
deriving DecidableEq

/-- `expandAccessLogSettings` (stage.go lines 462-478).  The Go argument
`[]interface{}` with possibly-nil elements is `List (Option AccessLogCfg)`. -/
def expandAccessLogSettings (vSettings : List (Option AccessLogCfg)) :
    AccessLogSettings :=
  match vSettings with
  | [] => {}
  | none :: _ => {}
  | some mSettings :: _ =>
    { destinationArn :=
        if mSettings.destinationArn ≠ "" then some mSettings.destinationArn
        else none,
      format := if mSettings.format ≠ "" then some mSettings.format else none }

/-- `flattenAccessLogSettings` (stage.go lines 480-489).  The Go argument is a
possibly-nil pointer, hence `Option AccessLogSettings`. -/
def flattenAccessLogSettings (settings : Option AccessLogSettings) :
    List AccessLogCfg :=
  match settings with
  | none => []
  | some s =>
    [{ destinationArn := s.destinationArn.getD "",
       format := s.format.getD "" }]

/-- Configuration-side `default_route_settings` block entry (no route key).
All attributes carry schema defaults, so every field is present. -/
structure DefaultRouteSettingsCfg where
  dataTraceEnabled : Bool
  detailedMetricsEnabled : Bool
  loggingLevel : String
  throttlingBurstLimit : Int
  throttlingRateLimit : Rat
deriving DecidableEq

/-- Configuration-side `route_settings` set element (has a `route_key`). -/
structure RouteSettingsCfg where
  dataTraceEnabled : Bool
  detailedMetricsEnabled : Bool
  loggingLevel : String
  routeKey : String
  throttlingBurstLimit : Int
  throttlingRateLimit : Rat
deriving DecidableEq

/-- AWS-side `awstypes.RouteSettings`.  `LoggingLevel` is a string-backed enum
value (not a pointer), so its unset state is the Go zero value `""`. -/
structure RouteSettings where
  dataTraceEnabled : Option Bool := none
  detailedMetricsEnabled : Option Bool := none
  loggingLevel : String := ""
  throttlingBurstLimit : Option Int := none
  throttlingRateLimit : Option Rat := none
deriving DecidableEq

/-- `expandDefaultRouteSettings` (stage.go lines 491-516). -/
def expandDefaultRouteSettings (vSettings : List (Option DefaultRouteSettingsCfg))
    (protocolType : String) : RouteSettings :=
  match vSettings with
  | [] => {}
  | none :: _ => {}
  | some mSettings :: _ =>
    { dataTraceEnabled :=
        if protocolType = ProtocolTypeWebsocket then
          some mSettings.dataTraceEnabled
        else none,
      detailedMetricsEnabled := some mSettings.detailedMetricsEnabled,
      loggingLevel :=
        if mSettings.loggingLevel ≠ "" ∧ protocolType = ProtocolTypeWebsocket then
          mSettings.loggingLevel
        else "",
      throttlingBurstLimit := some (toInt32 mSettings.throttlingBurstLimit),
      throttlingRateLimit := some mSettings.throttlingRateLimit }

/-- `flattenDefaultRouteSettings` (stage.go lines 518-530). -/
def flattenDefaultRouteSettings (routeSettings : Option RouteSettings) :
    List DefaultRouteSettingsCfg :=
  match routeSettings with
  | none => []
  | some rs =>
    [{ dataTraceEnabled := rs.dataTraceEnabled.getD false,
       detailedMetricsEnabled := rs.detailedMetricsEnabled.getD false,
       loggingLevel := rs.loggingLevel,
       throttlingBurstLimit := rs.throttlingBurstLimit.getD 0,
       throttlingRateLimit := rs.throttlingRateLimit.getD 0 }]

/-- Body of the `expandRouteSettings` loop (stage.go lines 536-554): one
configuration entry to one AWS `RouteSettings` value. -/
def expandRouteSettingsEntry (mSettings : RouteSettingsCfg)
    (protocolType : String) : RouteSettings :=
  { dataTraceEnabled :=
      if protocolType = ProtocolTypeWebsocket then
        some mSettings.dataTraceEnabled
      else none,
    detailedMetricsEnabled := some mSettings.detailedMetricsEnabled,
    loggingLevel :=
      if mSettings.loggingLevel ≠ "" ∧ protocolType = ProtocolTypeWebsocket then
        mSettings.loggingLevel
      else "",
    throttlingBurstLimit := some (toInt32 mSettings.throttlingBurstLimit),
    throttlingRateLimit := some mSettings.throttlingRateLimit }

/-- `expandRouteSettings` (stage.go lines 532-560): fold the entries into a Go
map keyed by `route_key`, later entries overwriting earlier ones. -/
def expandRouteSettings (vSettings : List RouteSettingsCfg)
    (protocolType : String) : List (String × RouteSettings) :=
  vSettings.foldl
    (fun settings mSettings =>
      goInsert settings mSettings.routeKey
        (expandRouteSettingsEntry mSettings protocolType))
    []

/-- `flattenRouteSettings` (stage.go lines 562-577).  Go iterates the map in
unspecified order; the stored order of the association list is used. -/
def flattenRouteSettings (settings : List (String × RouteSettings)) :
    List RouteSettingsCfg :=
  settings.map (fun p =>
    { dataTraceEnabled := p.2.dataTraceEnabled.getD false,
      detailedMetricsEnabled := p.2.detailedMetricsEnabled.getD false,
      loggingLevel := p.2.loggingLevel,
      routeKey := p.1,
      throttlingBurstLimit := p.2.throttlingBurstLimit.getD 0,
      throttlingRateLimit := p.2.throttlingRateLimit.getD 0 })

/-- Modelled from the spec: `flex.DiffStringValueMaps` lives in
`internal/flex`, which is not among the sources here.  Per the spec (section
4.2) it computes, for old map O and new map N, the added keys
`keys(N) − keys(O)`, the changed keys `{k ∈ O ∩ N : O[k] ≠ N[k]}` and the
removed keys `keys(O) − keys(N)`; the first returned map carries every added
or changed key with its new value, the second carries every removed key with
its old value (the unchanged entries, which the caller discards, are not
modelled). -/
def DiffStringValueMaps (o n : List (String × String)) :
    List (String × String) × List (String × String) :=
  (n.filter (fun p => decide (alookup p.1 o ≠ some p.2)),
   o.filter (fun p => decide (alookup p.1 n = none)))

/-- Stage-variables block of `resourceStageUpdate` (stage.go lines 390-402):
mark every removed key with the empty string, then overlay the added and
changed entries with Go map assignment. -/
def mergedStageVariables (o n : List (String × String)) :
    List (String × String) :=
  (DiffStringValueMaps o n).1.foldl
    (fun vars p => goInsert vars p.1 p.2)
    ((DiffStringValueMaps o n).2.map (fun p => (p.1, "")))

/-- The mutable stage attributes listed in the `d.HasChanges` call of
`resourceStageUpdate` (stage.go lines 330-332).  `api_id` and `name` are
immutable (`ForceNew`) and are carried separately. -/
structure StageConfig where
  accessLogSettings : List (Option AccessLogCfg)
  autoDeploy : Bool
  clientCertificateId : String
  defaultRouteSettings : List (Option DefaultRouteSettingsCfg)
  deploymentId : String
  description : String
  routeSettings : List RouteSettingsCfg
  stageVariables : List (String × String)
deriving DecidableEq

/-- `apigatewayv2.UpdateStageInput`: every request field is optional and is
populated only for attributes whose value changed. -/
structure UpdateStageInput where
  apiId : String
  stageName : String
  accessLogSettings : Option AccessLogSettings := none
  autoDeploy : Option Bool := none
  clientCertificateId : Option String := none
  defaultRouteSettings : Option RouteSettings := none
  deploymentId : Option String := none
  description : Option String := none
  routeSettings : Option (List (String × RouteSettings)) := none
  stageVariables : Option (List (String × String)) := none
deriving DecidableEq

/-- One remote call issued by the update orchestrator.  `readStage` stands for
the trailing `resourceStageRead` invocation as a whole (that function performs
its own remote calls, modelled separately by `resourceStageRead`). -/
inductive RemoteCall where
  | getApi (apiId : String)
  | deleteRouteSettings (apiId routeKey stageName : String)
  | updateStage (req : UpdateStageInput)
  | readStage
deriving DecidableEq

/-- The `d.HasChanges(...)` guard of `resourceStageUpdate` (stage.go lines
330-332): true when any of the eight in-scope mutable attributes changed. -/
def hasStageChanges (o n : StageConfig) : Bool :=
  decide (o.accessLogSettings ≠ n.accessLogSettings ∨
    o.autoDeploy ≠ n.autoDeploy ∨
    o.clientCertificateId ≠ n.clientCertificateId ∨
    o.defaultRouteSettings ≠ n.defaultRouteSettings ∨
    o.deploymentId ≠ n.deploymentId ∨
    o.description ≠ n.description ∨
    o.routeSettings ≠ n.routeSettings ∨
    o.stageVariables ≠ n.stageVariables)

/-- The `UpdateStageInput` assembled by `resourceStageUpdate` (stage.go lines
344-402): each field is set exactly when `d.HasChange` reports a change for
the corresponding attribute, with the same converters the Go code applies. -/
def buildUpdateReq (o n : StageConfig) (apiId stageName protocolType : String) :
    UpdateStageInput :=
  { apiId := apiId,
    stageName := stageName,
    accessLogSettings :=
      if o.accessLogSettings ≠ n.accessLogSettings then
        some (expandAccessLogSettings n.accessLogSettings)
      else none,
    autoDeploy := if o.autoDeploy ≠ n.autoDeploy then some n.autoDeploy else none,
    clientCertificateId :=
      if o.clientCertificateId ≠ n.clientCertificateId then
        some n.clientCertificateId
      else none,
    defaultRouteSettings :=
      if o.defaultRouteSettings ≠ n.defaultRouteSettings then
        some (expandDefaultRouteSettings n.defaultRouteSettings protocolType)
      else none,
    deploymentId :=
      if o.deploymentId ≠ n.deploymentId then some n.deploymentId else none,
    description :=
      if o.description ≠ n.description then some n.description else none,
    routeSettings :=
      if o.routeSettings ≠ n.routeSettings then
        some (expandRouteSettings n.routeSettings protocolType)
      else none,
    stageVariables :=
      if o.stageVariables ≠ n.stageVariables then
        some (mergedStageVariables o.stageVariables n.stageVariables)
      else none }

/-- `resourceStageUpdate` (stage.go lines 326-412) as the trace of remote
calls it issues when every remote call succeeds: if any in-scope attribute
changed, one owning-API lookup, then one `DeleteRouteSettings` per element of
`old route_settings − new route_settings` (whole-element set difference,
stage.go line 371), then one `UpdateStage`; in every case a trailing Read. -/
def resourceStageUpdate (o n : StageConfig)
    (apiId stageName protocolType : String) : List RemoteCall :=
  if hasStageChanges o n then
    RemoteCall.getApi apiId ::
      ((if o.routeSettings ≠ n.routeSettings then
          (o.routeSettings.filter (fun e => decide (e ∉ n.routeSettings))).map
            (fun e => RemoteCall.deleteRouteSettings apiId e.routeKey stageName)
        else []) ++
        [RemoteCall.updateStage (buildUpdateReq o n apiId stageName protocolType),
         RemoteCall.readStage])
  else [RemoteCall.readStage]

/-- Extracts the route key of a per-key route-settings delete call. -/
def deleteKeyOf : RemoteCall → Option String
  | RemoteCall.deleteRouteSettings _ routeKey _ => some routeKey
  | _ => none

/-- Extracts the `RouteSettings` payload of an `UpdateStage` call. -/
def updateRouteSettingsOf :
    RemoteCall → Option (Option (List (String × RouteSettings)))
  | RemoteCall.updateStage req => some req.routeSettings
  | _ => none

/-- Counts the calls of a trace satisfying a predicate. -/
def countCalls (p : RemoteCall → Bool) (trace : List RemoteCall) : Nat :=
  (trace.filter p).length

/-- Is this an `UpdateStage` call? -/
def isUpdateStageCall : RemoteCall → Bool
  | RemoteCall.updateStage _ => true
  | _ => false

/-- Is this a per-key route-settings delete call? -/
def isDeleteRouteSettingsCall : RemoteCall → Bool
  | RemoteCall.deleteRouteSettings _ _ _ => true
  | _ => false

/-- Is this an owning-API lookup? -/
def isGetApiCall : RemoteCall → Bool
  | RemoteCall.getApi _ => true
  | _ => false

/-- Is this the trailing Read? -/
def isReadStageCall : RemoteCall → Bool
  | RemoteCall.readStage => true
  | _ => false

/-- Outcome of a remote call: not-found or any other failure. -/
inductive RemoteErr where
  | notFound
  | other
deriving DecidableEq

/-- The part of the `GetStage` response the modelled claims depend on. -/
structure GetStageOutput where
  stageName : String
deriving DecidableEq

/-- Result of `resourceStageRead`: the local identifier after the call, the
error flag of the returned diagnostics, and the `invoke_url` value set on
success (`none` when the protocol type matches neither enum value). -/
structure ReadResult where
  newId : String
  errored : Bool
  invokeUrl : Option String
deriving DecidableEq

/-- Invoke-URL derivation of `resourceStageRead` (stage.go lines 312-321). -/
def invokeURL (protocolType apiId region stageName : String) : Option String :=
  if protocolType = ProtocolTypeWebsocket then
    some ("wss://" ++ apiId ++ ".execute-api." ++ region ++ ".amazonaws.com/"
      ++ stageName)
  else if protocolType = ProtocolTypeHttp then
    if stageName = defaultStageName then
      some ("https://" ++ apiId ++ ".execute-api." ++ region ++ ".amazonaws.com/")
    else
      some ("https://" ++ apiId ++ ".execute-api." ++ region ++ ".amazonaws.com/"
        ++ stageName)
  else none

/-- `resourceStageRead` (stage.go lines 246-324) restricted to identity,
error signalling and the invoke URL.  `getStage` is the `GetStage` response,
`getApi` the owning-API lookup response carrying the protocol type,
`stageId` the current `d.Id()`. -/
def resourceStageRead (getStage : Except RemoteErr GetStageOutput)
    (getApi : Except RemoteErr String) (isNewResource : Bool)
    (apiId region stageId : String) : ReadResult :=
  match getStage with
  | Except.error RemoteErr.notFound =>
    if !isNewResource then { newId := "", errored := false, invokeUrl := none }
    else { newId := stageId, errored := true, invokeUrl := none }
  | Except.error RemoteErr.other =>
    { newId := stageId, errored := true, invokeUrl := none }
  | Except.ok resp =>
    match getApi with
    | Except.error _ => { newId := stageId, errored := true, invokeUrl := none }
    | Except.ok protocolType =>
      { newId := stageId, errored := false,
        invokeUrl := invokeURL protocolType apiId region resp.stageName }

/-- `resourceStageDelete` (stage.go lines 414-431): returns whether the
diagnostics carry an error, given the `DeleteStage` call outcome. -/
def resourceStageDelete (del : Except RemoteErr Unit) : Bool :=
  match del with
  | Except.error RemoteErr.notFound => false
  | Except.error RemoteErr.other => true
  | Except.ok _ => false

/-- Outcome of `resourceStageImport` (stage.go lines 433-460). -/
inductive ImportResult where
  | malformedImportID
  | remoteError (e : RemoteErr)
  | unsupportedQuickCreate
  | ok (apiId stageName : String)
deriving DecidableEq

/-- Splits a character list at every occurrence of `sep`; the segments appear
in order and empty segments are kept, exactly as Go `strings.Split` does for a
one-character separator. -/
def splitChar (sep : Char) : List Char → List (List Char)
  | [] => [[]]
  | c :: cs =>
    if c = sep then [] :: splitChar sep cs
    else
      match splitChar sep cs with
      | [] => [[c]]
      | h :: t => (c :: h) :: t

/-- Go `strings.Split(s, "/")`: split on every `/`, keeping empty parts. -/
def goSplit (s : String) (sep : Char) : List String :=
  (splitChar sep s.data).map (fun l => String.mk l)

/-- `resourceStageImport`: split the composite identifier on `/`, reject
unless exactly two parts, then fetch the stage; `getStage` carries the
`ApiGatewayManaged` flag of the response. -/
def resourceStageImport (importId : String)
    (getStage : Except RemoteErr Bool) : ImportResult :=
  match goSplit importId '/' with
  | [apiId, stageName] =>
    match getStage with
    | Except.error e => ImportResult.remoteError e
    | Except.ok managed =>
      if managed then ImportResult.unsupportedQuickCreate
      else ImportResult.ok apiId stageName
  | _ => ImportResult.malformedImportID

/-- Empty stage configuration, used by concrete witnesses. -/
def emptyStageConfig : StageConfig :=
  { accessLogSettings := [],
    autoDeploy := false,
    clientCertificateId := "",
    defaultRouteSettings := [],
    deploymentId := "",
    description := "",
    routeSettings := [],
    stageVariables := [] }

/-- Concrete route-settings entry for key "A", used by concrete witnesses. -/
def rsA1 : RouteSettingsCfg :=
  { dataTraceEnabled := false,
    detailedMetricsEnabled := false,
    loggingLevel := "",
    routeKey := "A",
    throttlingBurstLimit := 1,
    throttlingRateLimit := 0 }

/-- The same route key as `rsA1` with a different burst limit. -/
def rsA2 : RouteSettingsCfg := { rsA1 with throttlingBurstLimit := 2 }

/-- Concrete route-settings entry for key "B". -/
def rsB : RouteSettingsCfg := { rsA1 with routeKey := "B" }

/-- Concrete route-settings entry for key "C". -/
def rsC : RouteSettingsCfg := { rsA1 with routeKey := "C", throttlingBurstLimit := 3 }

/-- Concrete route-settings entry with every trace field configured, used by
concrete witnesses for the protocol-conditional gate. -/
def rsTraceful : RouteSettingsCfg :=
  { dataTraceEnabled := true,
    detailedMetricsEnabled := true,
    loggingLevel := LoggingLevelError,
    routeKey := "GET /pets",
    throttlingBurstLimit := 100,
    throttlingRateLimit := 50 }

theorem alookup_append {β : Type} (k : String) (l1 l2 : List (String × β)) :
    alookup k (l1 ++ l2) =
      match alookup k l1 with
      | some v => some v
      | none => alookup k l2 := by
  induction l1 with
  | nil => simp [alookup]
  | cons p ps ih =>
    by_cases h : p.1 = k
    · simp [alookup, h]
    · simp [alookup, h, ih]

theorem alookup_eq_none_of_not_mem_keys {β : Type} (k : String)
    (l : List (String × β)) (h : k ∉ l.map Prod.fst) : alookup k l = none := by
  induction l with
  | nil => simp [alookup]
  | cons p ps ih =>
    simp only [List.map_cons, List.mem_cons, not_or] at h
    have h1 : ¬p.1 = k := fun hp => h.1 hp.symm
    simp [alookup, h1, ih h.2]

theorem alookup_replaceKey {β : Type} (k : String) (v : β) (q : String)
    (m : List (String × β)) :
    alookup q (m.map (fun p => if p.1 = k then (k, v) else p)) =
      if q = k then
        (if m.any (fun p => decide (p.1 = k)) then some v else none)
      else alookup q m := by
  induction m with
  | nil => simp [alookup]
  | cons p ps ih =>
    by_cases hqk : q = k
    · subst hqk
      by_cases hpk : p.1 = q
      · simp [alookup, hpk, List.any_cons]
      · have hd : decide (p.1 = q) = false := by simp [hpk]
        simp [alookup, hpk, ih, List.any_cons]
        rw [hd, Bool.false_or]
    · have hkq : ¬k = q := fun h => hqk h.symm
      by_cases hpk : p.1 = k
      · have hpq : ¬p.1 = q := fun h => hqk (h.symm.trans hpk)
        simp [alookup, hpk, hkq, hpq, ih, hqk]
      · simp [alookup, hpk, ih, hqk]

theorem alookup_goInsert {β : Type} (m : List (String × β)) (k : String)
    (v : β) (q : String) :
    alookup q (goInsert m k v) = if q = k then some v else alookup q m := by
  unfold goInsert
  by_cases hany : (m.any fun p => decide (p.1 = k)) = true
  · rw [if_pos hany, alookup_replaceKey]
    by_cases hqk : q = k <;> simp [hqk, hany]
  · have hnm : k ∉ m.map Prod.fst := by
      intro hmem
      apply hany
      simp only [List.mem_map] at hmem
      obtain ⟨p, hp, hpk⟩ := hmem
      exact List.any_eq_true.2 ⟨p, hp, by simp [hpk]⟩
    rw [if_neg hany, alookup_append]
    by_cases hqk : q = k
    · subst hqk
      rw [alookup_eq_none_of_not_mem_keys q m hnm]
      simp [alookup]
    · have hkq : ¬k = q := fun h => hqk h.symm
      cases h : alookup q m with
      | some w => simp [h, hqk]
      | none => simp [h, alookup, hkq, hqk]

theorem find?_append_eq {α : Type} (p : α → Bool) (l1 l2 : List α) :
    (l1 ++ l2).find? p =
      match l1.find? p with
      | some x => some x
      | none => l2.find? p := by
  induction l1 with
  | nil => simp
  | cons a as ih =>
    cases h : p a with
    | true => simp [List.find?_cons, h]
    | false => simp [List.find?_cons, h, ih]

theorem alookup_foldl_goInsert {β γ : Type} (key : γ → String) (val : γ → β)
    (l : List γ) (m0 : List (String × β)) (k : String) :
    alookup k (l.foldl (fun m e => goInsert m (key e) (val e)) m0) =
      match l.reverse.find? (fun e => decide (key e = k)) with
      | some e => some (val e)
      | none => alookup k m0 := by
  induction l generalizing m0 with
  | nil => simp
  | cons e es ih =>
    simp only [List.foldl_cons, List.reverse_cons, ih,
      find?_append_eq (fun e => decide (key e = k)) es.reverse [e]]
    cases h : es.reverse.find? (fun e => decide (key e = k)) with
    | some x => rfl
    | none =>
      simp only [List.find?_cons, List.find?_nil]
      by_cases hk : key e = k
      · simp [hk, alookup_goInsert]
      · have hk2 : ¬k = key e := fun h => hk h.symm
        simp [hk, alookup_goInsert, hk2]

theorem keys_goInsert_nodup {β : Type} (m : List (String × β)) (k : String)
    (v : β) (h : (m.map Prod.fst).Nodup) :
    ((goInsert m k v).map Prod.fst).Nodup := by
  unfold goInsert
  by_cases hany : (m.any fun p => decide (p.1 = k)) = true
  · have hkeys : (m.map (fun p => if p.1 = k then (k, v) else p)).map Prod.fst
        = m.map Prod.fst := by
      simp only [List.map_map]
      apply List.map_congr_left
      intro p _
      by_cases hp : p.1 = k <;> simp [hp, Function.comp]
    simp only [hany, if_true, hkeys]
    exact h
  · have hnm : k ∉ m.map Prod.fst := by
      intro hmem
      apply hany
      simp only [List.mem_map] at hmem
      obtain ⟨p, hp, hpk⟩ := hmem
      exact List.any_eq_true.2 ⟨p, hp, by simp [hpk]⟩
    rw [if_neg hany]
    simp only [List.map_append]
    refine List.Nodup.append h (List.nodup_singleton k) ?_
    intro a ha hamem
    simp only [List.map_cons, List.map_nil, List.mem_singleton] at hamem
    subst hamem
    exact hnm ha

theorem keys_foldl_goInsert_nodup {β γ : Type} (key : γ → String)
    (val : γ → β) (l : List γ) (m0 : List (String × β))
    (h : (m0.map Prod.fst).Nodup) :
    (((l.foldl (fun m e => goInsert m (key e) (val e)) m0)).map Prod.fst).Nodup := by
  induction l generalizing m0 with
  | nil => simpa using h
  | cons e es ih =>
    simpa using ih (goInsert m0 (key e) (val e)) (keys_goInsert_nodup m0 (key e) (val e) h)

theorem find?_key_eq_none {β : Type} (k : String) (l : List (String × β))
    (h : k ∉ l.map Prod.fst) : l.find? (fun p => decide (p.1 = k)) = none := by
  induction l with
  | nil => simp
  | cons p ps ih =>
    simp only [List.map_cons, List.mem_cons, not_or] at h
    have h1 : ¬p.1 = k := fun hp => h.1 hp.symm
    simp [List.find?_cons, h1, ih h.2]

theorem find?_reverse_key_of_nodup {β : Type} (l : List (String × β))
    (h : (l.map Prod.fst).Nodup) (k : String) :
    l.reverse.find? (fun p => decide (p.1 = k)) =
      (alookup k l).map (fun v => (k, v)) := by
  induction l with
  | nil => simp [alookup]
  | cons p ps ih =>
    obtain ⟨p1, p2⟩ := p
    simp only [List.map_cons, List.nodup_cons] at h
    rw [List.reverse_cons, find?_append_eq]
    by_cases hpk : p1 = k
    · subst hpk
      have hrev : ps.reverse.find? (fun q => decide (q.1 = p1)) = none := by
        apply find?_key_eq_none
        simpa using h.1
      rw [hrev]
      simp [List.find?_cons, alookup]
    · rw [ih h.2]
      cases halk : alookup k ps with
      | some w => simp [List.find?_cons, hpk, alookup, halk]
      | none => simp [List.find?_cons, hpk, alookup, halk]

theorem alookup_filter_of_nodup {β : Type} (l : List (String × β))
    (h : (l.map Prod.fst).Nodup) (q : String × β → Bool) (k : String) :
    alookup k (l.filter q) =
      match alookup k l with
      | some v => if q (k, v) then some v else none
      | none => none := by
  induction l with
  | nil => simp [alookup]
  | cons p ps ih =>
    obtain ⟨p1, p2⟩ := p
    simp only [List.map_cons, List.nodup_cons] at h
    by_cases hpk : p1 = k
    · subst hpk
      have hfil : alookup p1 (ps.filter q) = none := by
        apply alookup_eq_none_of_not_mem_keys
        intro hmem
        apply h.1
        simp only [List.mem_map] at hmem ⊢
        obtain ⟨x, hx, hxk⟩ := hmem
        exact ⟨x, (List.mem_filter.1 hx).1, hxk⟩
      cases hq : q (p1, p2) with
      | true => simp [List.filter_cons, hq, alookup]
      | false => simp [List.filter_cons, hq, alookup, hfil]
    · cases hq : q (p1, p2) with
      | true => simp [List.filter_cons, hq, alookup, hpk, ih h.2]
      | false => simp [List.filter_cons, hq, alookup, hpk, ih h.2]

theorem alookup_map_mark {β : Type} (l : List (String × β)) (k c : String) :
    alookup k (l.map (fun p => (p.1, c))) = (alookup k l).map (fun _ => c) := by
  induction l with
  | nil => simp [alookup]
  | cons p ps ih =>
    by_cases hpk : p.1 = k <;> simp [alookup, hpk, ih]

theorem filter_key_length_le_one {β : Type} (l : List (String × β))
    (h : (l.map Prod.fst).Nodup) (k : String) :
    (l.filter (fun p => decide (p.1 = k))).length ≤ 1 := by
  induction l with
  | nil => simp
  | cons p ps ih =>
    obtain ⟨p1, p2⟩ := p
    simp only [List.map_cons, List.nodup_cons] at h
    by_cases hpk : p1 = k
    · subst hpk
      have hnil : ps.filter (fun p => decide (p.1 = p1)) = [] := by
        apply List.filter_eq_nil_iff.2
        intro x hx
        simp only [decide_eq_true_eq]
        intro hxk
        apply h.1
        simp only [List.mem_map]
        exact ⟨x, hx, hxk⟩
      simp [List.filter_cons, hnil]
    · simp [List.filter_cons, hpk, ih h.2]

theorem filter_key_length_pos_of_alookup {β : Type} (l : List (String × β))
    (k : String) (v : β) (h : alookup k l = some v) :
    0 < (l.filter (fun p => decide (p.1 = k))).length := by
  induction l with
  | nil => simp [alookup] at h
  | cons p ps ih =>
    by_cases hpk : p.1 = k
    · simp [List.filter_cons, hpk]
    · simp only [alookup, hpk, if_false] at h
      simpa [List.filter_cons, hpk] using ih h

theorem toInt32_eq_self (i : Int) (h1 : -(2 ^ 31) ≤ i) (h2 : i < 2 ^ 31) :
    toInt32 i = i := by
  unfold toInt32
  have h3 : (0 : Int) ≤ i + 2 ^ 31 := by linarith
  have h4 : i + 2 ^ 31 < 2 ^ 32 := by norm_num at h2 ⊢; linarith
  rw [Int.emod_eq_of_lt h3 h4]
  ring

theorem eq_false_of_find?_eq_none {α : Type} (p : α → Bool) (l : List α)
    (h : l.find? p = none) : ∀ x ∈ l, p x = false := by
  induction l with
  | nil => intro x hx; cases hx
  | cons a as ih =>
    intro x hx
    cases hpa : p a with
    | true => simp [List.find?_cons, hpa] at h
    | false =>
      simp only [List.find?_cons, hpa] at h
      cases hx with
      | head => exact hpa
      | tail _ hx2 => exact ih h x hx2

/-- C4 (claim as stated is too strong): the import format check rejects only
on the number of parts, never on a part being empty — `"abc123/"` splits into
two parts, one of them empty, and is not rejected as malformed. -/
theorem importId_nonEmptyParts_cex :
    goSplit "abc123/" '/' = ["abc123", ""]
  ∧ resourceStageImport "abc123/" (Except.ok false) = ImportResult.ok "abc123" ""
  ∧ resourceStageImport "abc123/" (Except.ok false) ≠ ImportResult.malformedImportID := by
  refine ⟨by decide, by decide, by decide⟩

/-- C4 (amended): Import fails with the malformed-import-id error exactly
when the identifier does not split on `/` into exactly two parts (the parts
are not checked for emptiness); `"abc123/prod"` imports API `"abc123"` and
stage `"prod"`, while `"abc123"` and `"abc123/prod/extra"` fail as
malformed whatever the remote returns. -/
theorem importId_twoParts_spec (importId : String)
    (getStage : Except RemoteErr Bool) :
    ((goSplit importId '/').length ≠ 2 →
      resourceStageImport importId getStage = ImportResult.malformedImportID)
  ∧ ((goSplit importId '/').length = 2 →
      resourceStageImport importId getStage ≠ ImportResult.malformedImportID)
  ∧ resourceStageImport "abc123/prod" (Except.ok false)
      = ImportResult.ok "abc123" "prod"
  ∧ resourceStageImport "abc123" getStage = ImportResult.malformedImportID
  ∧ resourceStageImport "abc123/prod/extra" getStage
      = ImportResult.malformedImportID := by
  refine ⟨?_, ?_, by decide, by rfl, by rfl⟩
  · intro hlen
    rcases h : goSplit importId '/' with _ | ⟨a, _ | ⟨b, _ | ⟨c, rest⟩⟩⟩
    · simp [resourceStageImport, h]
    · simp [resourceStageImport, h]
    · rw [h] at hlen; simp at hlen
    · simp [resourceStageImport, h]
  · intro hlen
    rcases h : goSplit importId '/' with _ | ⟨a, _ | ⟨b, _ | ⟨c, rest⟩⟩⟩
    · rw [h] at hlen; simp at hlen
    · rw [h] at hlen; simp at hlen
    · cases getStage with
      | error e => simp [resourceStageImport, h]
      | ok managed =>
        cases managed with
        | false => simp [resourceStageImport, h]
        | true => simp [resourceStageImport, h]
    · rw [h] at hlen; simp at hlen

/-- C4 witness: a three-part identifier is rejected as malformed and a
two-part identifier (even with an empty part) is not. -/
theorem importId_twoParts_spec_witness :
    resourceStageImport "a/b/c" (Except.ok false) = ImportResult.malformedImportID
  ∧ resourceStageImport "x/y" (Except.ok false) ≠ ImportResult.malformedImportID := by
  constructor
  · exact (importId_twoParts_spec "a/b/c" (Except.ok false)).1 (by decide)
  · exact (importId_twoParts_spec "x/y" (Except.ok false)).2.1 (by decide)

/-- C5: expanding a one-element access-log configuration whose destination
and format are both non-empty and flattening the result reproduces the
configuration exactly. -/
theorem accessLogRoundTrip_spec (s : AccessLogCfg)
    (h1 : s.destinationArn ≠ "") (h2 : s.format ≠ "") :
    flattenAccessLogSettings (some (expandAccessLogSettings [some s])) = [s] := by
  obtain ⟨d, f⟩ := s
  simp only [ne_eq] at h1 h2
  simp [expandAccessLogSettings, flattenAccessLogSettings, h1, h2]

/-- C5 witness at a concrete settings value. -/
theorem accessLogRoundTrip_spec_witness :
    flattenAccessLogSettings (some (expandAccessLogSettings
        [some { destinationArn := "arn:aws:logs:lg", format := "$context.requestId" }]))
      = [{ destinationArn := "arn:aws:logs:lg", format := "$context.requestId" }] :=
  accessLogRoundTrip_spec
    { destinationArn := "arn:aws:logs:lg", format := "$context.requestId" }
    (by decide) (by decide)

/-- C7: a not-found fetch on a non-fresh instance clears the local identity
and reports no error; every other fetch failure (any other error, or
not-found on a freshly-created instance) errors and leaves the identity
unchanged. -/
theorem read_notFound_spec (getApi : Except RemoteErr String)
    (apiId region stageId : String) (isNew : Bool) (e : RemoteErr) :
    (isNew = false →
      resourceStageRead (Except.error RemoteErr.notFound) getApi isNew apiId region stageId
        = { newId := "", errored := false, invokeUrl := none })
  ∧ (¬(e = RemoteErr.notFound ∧ isNew = false) →
      resourceStageRead (Except.error e) getApi isNew apiId region stageId
        = { newId := stageId, errored := true, invokeUrl := none }) := by
  constructor
  · intro h
    subst h
    rfl
  · intro h
    cases e with
    | notFound =>
      cases isNew with
      | false => exact absurd ⟨rfl, rfl⟩ h
      | true => rfl
    | other => rfl

/-- C7 witness: concrete not-found-on-existing and other-error reads. -/
theorem read_notFound_spec_witness :
    resourceStageRead (Except.error RemoteErr.notFound) (Except.ok "HTTP")
        false "abc123" "us-east-1" "prod"
      = { newId := "", errored := false, invokeUrl := none }
  ∧ resourceStageRead (Except.error RemoteErr.other) (Except.ok "HTTP")
        false "abc123" "us-east-1" "prod"
      = { newId := "prod", errored := true, invokeUrl := none } := by
  constructor
  · exact (read_notFound_spec (Except.ok "HTTP") "abc123" "us-east-1" "prod"
      false RemoteErr.other).1 rfl
  · exact (read_notFound_spec (Except.ok "HTTP") "abc123" "us-east-1" "prod"
      false RemoteErr.other).2 (by decide)

/-- C8: on a successful read, the websocket family yields
`wss://<apiId>.execute-api.<region>.amazonaws.com/<stageName>`, and the http
family yields `https://<apiId>.execute-api.<region>.amazonaws.com/` exactly
for the reserved default stage name and the same URL with the stage name
appended otherwise. -/
theorem read_invokeUrl_spec (apiId region stageName stageId : String)
    (isNew : Bool) :
    (resourceStageRead (Except.ok { stageName := stageName })
        (Except.ok ProtocolTypeWebsocket) isNew apiId region stageId).invokeUrl
      = some ("wss://" ++ apiId ++ ".execute-api." ++ region ++ ".amazonaws.com/"
          ++ stageName)
  ∧ (stageName = defaultStageName →
      (resourceStageRead (Except.ok { stageName := stageName })
          (Except.ok ProtocolTypeHttp) isNew apiId region stageId).invokeUrl
        = some ("https://" ++ apiId ++ ".execute-api." ++ region
            ++ ".amazonaws.com/"))
  ∧ (stageName ≠ defaultStageName →
      (resourceStageRead (Except.ok { stageName := stageName })
          (Except.ok ProtocolTypeHttp) isNew apiId region stageId).invokeUrl
        = some ("https://" ++ apiId ++ ".execute-api." ++ region
            ++ ".amazonaws.com/" ++ stageName)) := by
  refine ⟨?_, ?_, ?_⟩
  · simp [resourceStageRead, invokeURL]
  · intro h
    simp [resourceStageRead, invokeURL, ProtocolTypeHttp, ProtocolTypeWebsocket, h]
  · intro h
    simp [resourceStageRead, invokeURL, ProtocolTypeHttp, ProtocolTypeWebsocket, h]

/-- C8 witness: the spec's two concrete URL examples. -/
theorem read_invokeUrl_spec_witness :
    (resourceStageRead (Except.ok { stageName := "prod" })
        (Except.ok ProtocolTypeWebsocket) false "abc123" "us-east-1" "prod").invokeUrl
      = some "wss://abc123.execute-api.us-east-1.amazonaws.com/prod"
  ∧ (resourceStageRead (Except.ok { stageName := "$default" })
        (Except.ok ProtocolTypeHttp) false "abc123" "us-east-1" "$default").invokeUrl
      = some "https://abc123.execute-api.us-east-1.amazonaws.com/" := by
  constructor
  · exact ((read_invokeUrl_spec "abc123" "us-east-1" "prod" "prod" false).1).trans
      (by decide)
  · exact ((read_invokeUrl_spec "abc123" "us-east-1" "$default" "$default"
      false).2.1 (by rfl)).trans (by decide)

/-- C9: a delete whose remote call reports not-found returns no error, any
other remote delete failure errors, and a successful delete returns no
error. -/
theorem delete_notFound_spec :
    resourceStageDelete (Except.error RemoteErr.notFound) = false
  ∧ resourceStageDelete (Except.error RemoteErr.other) = true
  ∧ resourceStageDelete (Except.ok ()) = false :=
  ⟨rfl, rfl, rfl⟩

/-- C6: an update whose change-set is empty issues no remote update call, no
per-key route-override delete, and no owning-API lookup of its own, and its
trace is exactly one Read. -/
theorem update_emptyChangeSet_spec (o n : StageConfig)
    (apiId stageName protocolType : String) (h : o = n) :
    resourceStageUpdate o n apiId stageName protocolType = [RemoteCall.readStage]
  ∧ countCalls isUpdateStageCall
      (resourceStageUpdate o n apiId stageName protocolType) = 0
  ∧ countCalls isDeleteRouteSettingsCall
      (resourceStageUpdate o n apiId stageName protocolType) = 0
  ∧ countCalls isGetApiCall
      (resourceStageUpdate o n apiId stageName protocolType) = 0
  ∧ countCalls isReadStageCall
      (resourceStageUpdate o n apiId stageName protocolType) = 1 := by
  subst h
  have hch : hasStageChanges o o = false := by simp [hasStageChanges]
  have htr : resourceStageUpdate o o apiId stageName protocolType
      = [RemoteCall.readStage] := by
    simp [resourceStageUpdate, hch]
  refine ⟨htr, ?_, ?_, ?_, ?_⟩ <;> rw [htr] <;> rfl

/-- C6 witness at a concrete unchanged configuration. -/
theorem update_emptyChangeSet_spec_witness :
    resourceStageUpdate emptyStageConfig emptyStageConfig "abc123" "prod" "HTTP"
      = [RemoteCall.readStage] :=
  (update_emptyChangeSet_spec emptyStageConfig emptyStageConfig
    "abc123" "prod" "HTTP" rfl).1

theorem filterMap_deleteKeyOf_map (apiId stageName : String)
    (l : List RouteSettingsCfg) :
    l.filterMap
        (deleteKeyOf ∘ fun e => RemoteCall.deleteRouteSettings apiId e.routeKey stageName)
      = l.map RouteSettingsCfg.routeKey := by
  induction l with
  | nil => rfl
  | cons e es ih => simp [List.filterMap_cons, deleteKeyOf, Function.comp, ih]

theorem filterMap_updateRouteSettingsOf_map (apiId stageName : String)
    (l : List RouteSettingsCfg) :
    l.filterMap
        (updateRouteSettingsOf ∘ fun e => RemoteCall.deleteRouteSettings apiId e.routeKey stageName)
      = [] := by
  induction l with
  | nil => rfl
  | cons e es ih => simp [List.filterMap_cons, updateRouteSettingsOf, Function.comp, ih]

/-- C1 (claim as stated is too strong): the route-override differ diffs whole
set elements, not keys.  With old set `{A with burst 1}` and new set
`{A with burst 2}` a per-key delete is issued for route key `A` even though
`A` is still present among the new set's keys, while `keys(O) − keys(N)` is
empty. -/
theorem routeOverrideDiffer_keyDiff_cex :
    (resourceStageUpdate { emptyStageConfig with routeSettings := [rsA1] }
        { emptyStageConfig with routeSettings := [rsA2] }
        "abc123" "prod" ProtocolTypeHttp).filterMap deleteKeyOf = ["A"]
  ∧ [rsA2].map RouteSettingsCfg.routeKey = ["A"]
  ∧ ([rsA1].map RouteSettingsCfg.routeKey).filter
      (fun k => decide (k ∉ [rsA2].map RouteSettingsCfg.routeKey)) = [] := by
  refine ⟨by decide, by decide, by decide⟩

/-- C1 (amended): when the route-override set changed, the per-key deletes
issued are exactly the route keys of the old entries that are absent from the
new set as whole (key, settings) entries — covering both removed keys and
keys whose settings changed — and the update request carries the expansion of
the entire new set as one bulk replace. -/
theorem routeOverrideDiffer_spec (o n : StageConfig)
    (apiId stageName protocolType : String)
    (h : o.routeSettings ≠ n.routeSettings) :
    (resourceStageUpdate o n apiId stageName protocolType).filterMap deleteKeyOf
      = (o.routeSettings.filter (fun e => decide (e ∉ n.routeSettings))).map
          RouteSettingsCfg.routeKey
  ∧ (resourceStageUpdate o n apiId stageName protocolType).filterMap
        updateRouteSettingsOf
      = [some (expandRouteSettings n.routeSettings protocolType)] := by
  have hch : hasStageChanges o n = true := by
    simp only [hasStageChanges, decide_eq_true_eq]
    tauto
  have e1 : resourceStageUpdate o n apiId stageName protocolType =
      RemoteCall.getApi apiId ::
        ((o.routeSettings.filter (fun e => decide (e ∉ n.routeSettings))).map
            (fun e => RemoteCall.deleteRouteSettings apiId e.routeKey stageName) ++
          [RemoteCall.updateStage (buildUpdateReq o n apiId stageName protocolType),
           RemoteCall.readStage]) := by
    unfold resourceStageUpdate
    rw [hch]
    simp [h]
  constructor
  · rw [e1]
    simp [List.filterMap_cons, List.filterMap_append, deleteKeyOf,
      filterMap_deleteKeyOf_map]
  · rw [e1]
    simp [List.filterMap_cons, List.filterMap_append, updateRouteSettingsOf,
      filterMap_updateRouteSettingsOf_map, buildUpdateReq, h]

/-- C1 witness on the spec's example shape: old `{A, B}`, new `{B, C}` with
`B` unchanged yields exactly one delete, for `A`, and a bulk replace of the
whole new set. -/
theorem routeOverrideDiffer_spec_witness :
    (resourceStageUpdate { emptyStageConfig with routeSettings := [rsA1, rsB] }
        { emptyStageConfig with routeSettings := [rsB, rsC] }
        "abc123" "prod" ProtocolTypeHttp).filterMap deleteKeyOf = ["A"]
  ∧ (resourceStageUpdate { emptyStageConfig with routeSettings := [rsA1, rsB] }
        { emptyStageConfig with routeSettings := [rsB, rsC] }
        "abc123" "prod" ProtocolTypeHttp).filterMap updateRouteSettingsOf
      = [some (expandRouteSettings [rsB, rsC] ProtocolTypeHttp)] := by
  constructor
  · exact ((routeOverrideDiffer_spec
      { emptyStageConfig with routeSettings := [rsA1, rsB] }
      { emptyStageConfig with routeSettings := [rsB, rsC] }
      "abc123" "prod" ProtocolTypeHttp (by decide)).1).trans (by decide)
  · exact ((routeOverrideDiffer_spec
      { emptyStageConfig with routeSettings := [rsA1, rsB] }
      { emptyStageConfig with routeSettings := [rsB, rsC] }
      "abc123" "prod" ProtocolTypeHttp (by decide)).2).trans (by rfl)

/-- C2 (claim as stated is mistaken on one value): under the suppressing
(non-websocket) family, the flattened logging level of a gated round trip is
the empty string — the Go zero value of the string-backed enum — not the
enum's off value, in either spelling; moreover a burst limit outside the
32-bit range is not preserved but truncated by the `int32` conversion. -/
theorem gatedRouteSettings_loggingOff_cex :
    (flattenRouteSettings (expandRouteSettings [rsTraceful] ProtocolTypeHttp)).map
        RouteSettingsCfg.loggingLevel = [""]
  ∧ (flattenRouteSettings (expandRouteSettings [rsTraceful] ProtocolTypeHttp)).map
        RouteSettingsCfg.loggingLevel ≠ ["off"]
  ∧ (flattenRouteSettings (expandRouteSettings [rsTraceful] ProtocolTypeHttp)).map
        RouteSettingsCfg.loggingLevel ≠ [LoggingLevelOff]
  ∧ (flattenRouteSettings (expandRouteSettings
        [{ rsA1 with throttlingBurstLimit := 2 ^ 31 }] ProtocolTypeHttp)).map
        RouteSettingsCfg.throttlingBurstLimit = [-(2 ^ 31)] := by
  refine ⟨by decide, by decide, by decide, by decide⟩

/-- C2 (amended): for every route-settings entry and every non-websocket
protocol family, flattening the expansion yields data-trace-enabled = false
and logging-level = the empty string (the unset zero value) regardless of the
configured values, while detailed-metrics, the throttling burst limit (for
values within the 32-bit range the converters round-trip through) and the
throttling rate limit are preserved, along with the route key. -/
theorem gatedRouteSettings_roundTrip_spec (r : RouteSettingsCfg) (F : String)
    (hF : F ≠ ProtocolTypeWebsocket)
    (hb1 : -(2 ^ 31) ≤ r.throttlingBurstLimit)
    (hb2 : r.throttlingBurstLimit < 2 ^ 31) :
    flattenRouteSettings (expandRouteSettings [r] F) =
      [{ r with dataTraceEnabled := false, loggingLevel := "" }] := by
  obtain ⟨dt, dm, ll, rk, tb, tr⟩ := r
  simp only at hb1 hb2
  unfold expandRouteSettings
  simp only [List.foldl_cons, List.foldl_nil]
  have hg : goInsert ([] : List (String × RouteSettings)) rk
      (expandRouteSettingsEntry ⟨dt, dm, ll, rk, tb, tr⟩ F) =
      [(rk, expandRouteSettingsEntry ⟨dt, dm, ll, rk, tb, tr⟩ F)] := by
    simp [goInsert]
  rw [hg]
  unfold flattenRouteSettings expandRouteSettingsEntry
  simp [hF, toInt32_eq_self tb hb1 hb2]

/-- C2 witness at a concrete traceful entry under the http family. -/
theorem gatedRouteSettings_roundTrip_spec_witness :
    flattenRouteSettings (expandRouteSettings [rsTraceful] ProtocolTypeHttp) =
      [{ rsTraceful with dataTraceEnabled := false, loggingLevel := "" }] :=
  gatedRouteSettings_roundTrip_spec rsTraceful ProtocolTypeHttp
    (by decide) (by decide) (by decide)

/-- C3: for old and new variable maps with unique keys, the merged
instruction map sends every removed key to the empty string, every added or
changed key to its new value from the new map, and carries no entry for an
unchanged key — in particular no new value is shadowed by a deletion
marker. -/
theorem variableMapDiffer_spec (o n : List (String × String))
    (ho : (o.map Prod.fst).Nodup) (hn : (n.map Prod.fst).Nodup) (k : String) :
    alookup k (mergedStageVariables o n) =
      match alookup k n, alookup k o with
      | some nv, some ov => if nv = ov then none else some nv
      | some nv, none => some nv
      | none, some _ => some ""
      | none, none => none := by
  have hadnodup : ((n.filter
      (fun p => decide (alookup p.1 o ≠ some p.2))).map Prod.fst).Nodup := by
    refine List.Nodup.sublist ?_ hn
    exact (List.filter_sublist n).map Prod.fst
  unfold mergedStageVariables DiffStringValueMaps
  rw [alookup_foldl_goInsert Prod.fst Prod.snd,
    find?_reverse_key_of_nodup _ hadnodup k,
    alookup_filter_of_nodup n hn, alookup_map_mark,
    alookup_filter_of_nodup o ho]
  cases hkn : alookup k n with
  | some nv =>
    cases hko : alookup k o with
    | some ov =>
      by_cases hv : nv = ov
      · simp [hkn, hko, hv]
      · have hv2 : ¬ov = nv := fun hh => hv hh.symm
        simp [hkn, hko, hv, hv2]
    | none => simp [hkn, hko]
  | none =>
    cases hko : alookup k o with
    | some ov => simp [hkn, hko]
    | none => simp [hkn, hko]

/-- C3 witness on the spec's example: old `{a:1, b:2}`, new `{b:3, c:4}`
merge to `{a:"", b:3, c:4}`. -/
theorem variableMapDiffer_spec_witness :
    alookup "a" (mergedStageVariables [("a", "1"), ("b", "2")]
        [("b", "3"), ("c", "4")]) = some ""
  ∧ alookup "b" (mergedStageVariables [("a", "1"), ("b", "2")]
        [("b", "3"), ("c", "4")]) = some "3"
  ∧ alookup "c" (mergedStageVariables [("a", "1"), ("b", "2")]
        [("b", "3"), ("c", "4")]) = some "4"
  ∧ mergedStageVariables [("a", "1"), ("b", "2")] [("b", "3"), ("c", "4")]
      = [("a", ""), ("b", "3"), ("c", "4")] := by
  refine ⟨?_, ?_, ?_, by decide⟩
  · exact (variableMapDiffer_spec [("a", "1"), ("b", "2")] [("b", "3"), ("c", "4")]
      (by decide) (by decide) "a").trans (by decide)
  · exact (variableMapDiffer_spec [("a", "1"), ("b", "2")] [("b", "3"), ("c", "4")]
      (by decide) (by decide) "b").trans (by decide)
  · exact (variableMapDiffer_spec [("a", "1"), ("b", "2")] [("b", "3"), ("c", "4")]
      (by decide) (by decide) "c").trans (by decide)

/-- C10: when the input list of the per-route expander holds two or more
entries with the same route key, the resulting keyed map holds exactly one
entry for that key, and its settings are the expansion of the entry occurring
last in input order (the entry `find?` locates in the reversed list); no
failure path exists for duplicates. -/
theorem expandRouteSettings_duplicateKeys_spec (l : List RouteSettingsCfg)
    (protocolType k : String)
    (hdup : 2 ≤ (l.filter (fun e => decide (e.routeKey = k))).length) :
    ((expandRouteSettings l protocolType).filter
        (fun p => decide (p.1 = k))).length = 1
  ∧ ∀ e, l.reverse.find? (fun x => decide (x.routeKey = k)) = some e →
      alookup k (expandRouteSettings l protocolType)
        = some (expandRouteSettingsEntry e protocolType) := by
  have hlk : alookup k (expandRouteSettings l protocolType) =
      match l.reverse.find? (fun x => decide (x.routeKey = k)) with
      | some e => some (expandRouteSettingsEntry e protocolType)
      | none => none := by
    unfold expandRouteSettings
    rw [alookup_foldl_goInsert RouteSettingsCfg.routeKey
      (fun e => expandRouteSettingsEntry e protocolType) l [] k]
    cases l.reverse.find? (fun x => decide (x.routeKey = k)) <;> simp [alookup]
  constructor
  · have hnodup : ((expandRouteSettings l protocolType).map Prod.fst).Nodup := by
      unfold expandRouteSettings
      exact keys_foldl_goInsert_nodup RouteSettingsCfg.routeKey
        (fun e => expandRouteSettingsEntry e protocolType) l [] (by simp)
    have hle := filter_key_length_le_one _ hnodup k
    obtain ⟨x, hx⟩ : ∃ x, x ∈ l.filter (fun e => decide (e.routeKey = k)) := by
      cases hfl : l.filter (fun e => decide (e.routeKey = k)) with
      | nil => rw [hfl] at hdup; simp at hdup
      | cons y ys => exact ⟨y, hfl ▸ List.mem_cons_self y ys⟩
    have hxl : x ∈ l := (List.mem_filter.1 hx).1
    have hxk : decide (x.routeKey = k) = true := (List.mem_filter.1 hx).2
    obtain ⟨e, he⟩ : ∃ e, l.reverse.find? (fun x => decide (x.routeKey = k)) = some e := by
      cases hf : l.reverse.find? (fun x => decide (x.routeKey = k)) with
      | some e => exact ⟨e, rfl⟩
      | none =>
        have hall := eq_false_of_find?_eq_none _ _ hf x (List.mem_reverse.2 hxl)
        rw [hxk] at hall
        cases hall
    have halk : alookup k (expandRouteSettings l protocolType)
        = some (expandRouteSettingsEntry e protocolType) := by
      rw [hlk, he]
    have hge := filter_key_length_pos_of_alookup _ k _ halk
    omega
  · intro e he
    rw [hlk, he]

/-- C10 witness: the input holds key "A" twice; the map holds it once, with
the settings of the later entry. -/
theorem expandRouteSettings_duplicateKeys_spec_witness :
    ((expandRouteSettings [rsA1, rsB, rsA2] ProtocolTypeHttp).filter
        (fun p => decide (p.1 = "A"))).length = 1
  ∧ alookup "A" (expandRouteSettings [rsA1, rsB, rsA2] ProtocolTypeHttp)
      = some (expandRouteSettingsEntry rsA2 ProtocolTypeHttp) := by
  have h := expandRouteSettings_duplicateKeys_spec [rsA1, rsB, rsA2]
    ProtocolTypeHttp "A" (by decide)
  exact ⟨h.1, h.2 rsA2 (by decide)⟩

end StageModel
